import Mathlib

/-
Formal model of the muskmelon interpreter: a hand-written lexer, a Pratt
parser and a tree-walking evaluator, shallowly embedded from the Go source
(src/lexer/lexer.go, the parser in src/object/environment.go, src/ast/ast.go,
src/object/object.go, src/unnamed/part_000 and src/evaluator/evaluator.go).
-/

set_option maxRecDepth 8000
set_option maxHeartbeats 2000000

namespace Muskmelon

/-- Token carries a TokenType tag (a Go string) and a literal string
(token.Token in the token package). -/
structure Token where
  type : String
  literal : String

/-- Modelled from the spec: the token package is not under src/.  TokenType is
a string; the constants' values are pinned by spec section 3.1 (each symbolic
token's type string is its lexeme, keyword and class tokens use their names)
and by the parser error text quoted in the spec. -/
def tokILLEGAL : String := "ILLEGAL"

def tokEOF : String := "EOF"

def tokIDENT : String := "IDENT"

def tokINT : String := "INT"

def tokSTRING : String := "STRING"

def tokASSIGN : String := "="

def tokPLUS : String := "+"

def tokMINUS : String := "-"

def tokBANG : String := "!"

def tokASTERISK : String := "*"

def tokSLASH : String := "/"

def tokLT : String := "<"

def tokGT : String := ">"

def tokEQ : String := "=="

def tokNEQ : String := "!="

def tokCOMMA : String := ","

def tokSEMICOLON : String := ";"

def tokLPAREN : String := "("

def tokRPAREN : String := ")"

def tokLBRACE : String := "\x7b"

def tokRBRACE : String := "\x7d"

def tokLBRACKET : String := "["

def tokRBRACKET : String := "]"

def tokFUNCTION : String := "FUNCTION"

def tokLET : String := "LET"

def tokTRUE : String := "TRUE"

def tokFALSE : String := "FALSE"

def tokIF : String := "IF"

def tokELSE : String := "ELSE"

def tokRETURN : String := "RETURN"

/-- Modelled from the spec: token.LookupIdent resolves a scanned word through
the keyword table (fn, let, true, false, if, else, return); unknown literals
become IDENT (spec section 4.1). -/
def LookupIdent (s : String) : String :=
  if s = "fn" then tokFUNCTION
  else if s = "let" then tokLET
  else if s = "true" then tokTRUE
  else if s = "false" then tokFALSE
  else if s = "if" then tokIF
  else if s = "else" then tokELSE
  else if s = "return" then tokRETURN
  else tokIDENT

/-- Lexer state (src/lexer/lexer.go).  The Go struct also stores readPosition
and ch, but readChar maintains readPosition = position + 1 (every rune is one
element of the char list) and ch = the rune at position (0 past the end), so
both are functions of position and are derived here.  The input is the rune
sequence of the source string; utf8.DecodeRuneInString walks it one code
point at a time. -/
structure Lexer where
  input : List Char
  position : Nat

/-- The current character l.ch: the rune at position, or 0 at/after the end
of input (readChar in the source). -/
def chAt (l : Lexer) : Char :=
  if h : l.position < l.input.length then l.input.get ⟨l.position, h⟩
  else Char.ofNat 0

/-- New: the constructor runs readChar once, ending with position = 0. -/
def lexerNew (input : List Char) : Lexer := ⟨input, 0⟩

/-- readChar: move to the next rune (ch and readPosition are derived). -/
def readChar (l : Lexer) : Lexer := ⟨l.input, l.position + 1⟩

/-- peekChar: the rune at readPosition = position + 1, or 0 past the end. -/
def peekChar (l : Lexer) : Char :=
  if h : l.position + 1 < l.input.length then l.input.get ⟨l.position + 1, h⟩
  else Char.ofNat 0

/-- isLetter from the source: ASCII letters and underscore. -/
def isLetter (c : Char) : Bool :=
  (decide ('a' ≤ c) && decide (c ≤ 'z')) ||
  (decide ('A' ≤ c) && decide (c ≤ 'Z')) || c == '_'

/-- isDigit from the source: ASCII digits. -/
def isDigitCh (c : Char) : Bool :=
  decide ('0' ≤ c) && decide (c ≤ '9')

/-- Whitespace skipped by skipWhitespace: space, tab, newline, carriage
return. -/
def isWhitespaceCh (c : Char) : Bool :=
  c == ' ' || c == '\t' || c == '\n' || c == '\r'

theorem chAt_of_ge (l : Lexer) (h : l.input.length ≤ l.position) :
    chAt l = Char.ofNat 0 := by
  unfold chAt
  rw [dif_neg (by omega)]

theorem pos_lt_of_isWhitespace (l : Lexer) (h : isWhitespaceCh (chAt l) = true) :
    l.position < l.input.length := by
  by_contra hn
  rw [chAt_of_ge l (by omega)] at h
  simp [isWhitespaceCh] at h

theorem pos_lt_of_isLetter (l : Lexer) (h : isLetter (chAt l) = true) :
    l.position < l.input.length := by
  by_contra hn
  rw [chAt_of_ge l (by omega)] at h
  exact absurd h (by decide)

theorem pos_lt_of_isDigit (l : Lexer) (h : isDigitCh (chAt l) = true) :
    l.position < l.input.length := by
  by_contra hn
  rw [chAt_of_ge l (by omega)] at h
  exact absurd h (by decide)

/-- skipWhitespace's loop body, recursing on an explicit iteration bound so
that the definition is structural (and so kernel-reducible).  Each iteration
of the Go loop requires the current rune to be whitespace — impossible at or
past the end of input, where the rune is 0 — and advances position by one,
so input.length + 1 - position iterations always suffice and the bound never
cuts the loop short. -/
def skipWhitespaceGas : Nat → Lexer → Lexer
  | 0, l => l
  | gas + 1, l =>
    if isWhitespaceCh (chAt l) then skipWhitespaceGas gas (readChar l) else l

/-- skipWhitespace: advance while the current rune is whitespace. -/
def skipWhitespace (l : Lexer) : Lexer :=
  skipWhitespaceGas (l.input.length + 1 - l.position) l

/-- readIdentifier's scanning loop (same bounding as skipWhitespaceGas: a
letter rune is never the 0 rune past the end): consume runes while isLetter,
returning the consumed runes — the source returns the slice
input[position0:position], which is exactly the run of letter runes
consumed — and the final state. -/
def readLettersGas : Nat → Lexer → List Char × Lexer
  | 0, l => ([], l)
  | gas + 1, l =>
    if isLetter (chAt l) then
      match readLettersGas gas (readChar l) with
      | (cs, l1) => (chAt l :: cs, l1)
    else ([], l)

def readLetters (l : Lexer) : List Char × Lexer :=
  readLettersGas (l.input.length + 1 - l.position) l

/-- readNumber's scanning loop: consume runes while isDigit. -/
def readDigitsGas : Nat → Lexer → List Char × Lexer
  | 0, l => ([], l)
  | gas + 1, l =>
    if isDigitCh (chAt l) then
      match readDigitsGas gas (readChar l) with
      | (cs, l1) => (chAt l :: cs, l1)
    else ([], l)

def readDigits (l : Lexer) : List Char × Lexer :=
  readDigitsGas (l.input.length + 1 - l.position) l

/-- readString's loop (src/lexer/lexer.go): starting at the opening quote,
repeatedly advance until the next quote or 0; the literal is the interior
input[position+1:final position], returned here together with the final
state (left on the closing quote or at the 0).  Each iteration before the
last needs position + 1 < input.length (otherwise the advanced rune is 0 and
the loop stops), so the same bound suffices. -/
def readStringGas : Nat → Lexer → List Char × Lexer
  | 0, l => ([], readChar l)
  | gas + 1, l =>
    if chAt (readChar l) == '"' || chAt (readChar l) == Char.ofNat 0 then
      ([], readChar l)
    else
      match readStringGas gas (readChar l) with
      | (cs, l1) => (chAt (readChar l) :: cs, l1)

def readStringLoop (l : Lexer) : List Char × Lexer :=
  readStringGas (l.input.length + 1 - l.position) l

/-- newToken helper: a token from a single rune. -/
def newToken (t : String) (c : Char) : Token := ⟨t, String.mk [c]⟩

/-- NextToken's dispatch (src/lexer/lexer.go) on the state left by
skipWhitespace: switch on the current rune and, except in the
identifier/number branches (whose scanning loops already advanced past the
word), read one more rune before returning.  The source binds tok and
mutates l; here the rune tests are written against the post-skip state
directly. -/
def nextTokenCore (l : Lexer) : Token × Lexer :=
  if chAt l == '=' then
    if peekChar l == '=' then (⟨tokEQ, "=="⟩, readChar (readChar l))
    else (newToken tokASSIGN (chAt l), readChar l)
  else if chAt l == ';' then (newToken tokSEMICOLON (chAt l), readChar l)
  else if chAt l == '(' then (newToken tokLPAREN (chAt l), readChar l)
  else if chAt l == ')' then (newToken tokRPAREN (chAt l), readChar l)
  else if chAt l == ',' then (newToken tokCOMMA (chAt l), readChar l)
  else if chAt l == '+' then (newToken tokPLUS (chAt l), readChar l)
  else if chAt l == '-' then (newToken tokMINUS (chAt l), readChar l)
  else if chAt l == '!' then
    if peekChar l == '=' then (⟨tokNEQ, "!="⟩, readChar (readChar l))
    else (newToken tokBANG (chAt l), readChar l)
  else if chAt l == '/' then (newToken tokSLASH (chAt l), readChar l)
  else if chAt l == '*' then (newToken tokASTERISK (chAt l), readChar l)
  else if chAt l == '<' then (newToken tokLT (chAt l), readChar l)
  else if chAt l == '>' then (newToken tokGT (chAt l), readChar l)
  else if chAt l == '\x7b' then (newToken tokLBRACE (chAt l), readChar l)
  else if chAt l == '\x7d' then (newToken tokRBRACE (chAt l), readChar l)
  else if chAt l == Char.ofNat 0 then (⟨tokEOF, ""⟩, readChar l)
  else if chAt l == '"' then
    (⟨tokSTRING, String.mk (readStringLoop l).1⟩, readChar (readStringLoop l).2)
  else if chAt l == '[' then (newToken tokLBRACKET (chAt l), readChar l)
  else if chAt l == ']' then (newToken tokRBRACKET (chAt l), readChar l)
  else if isLetter (chAt l) then
    (⟨LookupIdent (String.mk (readLetters l).1), String.mk (readLetters l).1⟩,
      (readLetters l).2)
  else if isDigitCh (chAt l) then
    (⟨tokINT, String.mk (readDigits l).1⟩, (readDigits l).2)
  else (newToken tokILLEGAL (chAt l), readChar l)

/-- NextToken: skip whitespace, then dispatch on the current rune. -/
def nextToken (l0 : Lexer) : Token × Lexer := nextTokenCore (skipWhitespace l0)

theorem skipWhitespaceGas_props (gas : Nat) (l : Lexer) :
    (skipWhitespaceGas gas l).input = l.input ∧
      l.position ≤ (skipWhitespaceGas gas l).position := by
  induction gas generalizing l with
  | zero => exact ⟨rfl, le_refl _⟩
  | succ k ih =>
    simp only [skipWhitespaceGas]
    split
    · have := ih (readChar l)
      have hpos : (readChar l).position = l.position + 1 := rfl
      have hin : (readChar l).input = l.input := rfl
      exact ⟨this.1.trans hin, by have := this.2; omega⟩
    · exact ⟨rfl, le_refl _⟩

theorem skipWhitespace_props (l : Lexer) :
    (skipWhitespace l).input = l.input ∧ l.position ≤ (skipWhitespace l).position :=
  skipWhitespaceGas_props _ l

/-- Once the current rune is not whitespace the skip loop is the identity,
whatever the bound. -/
theorem skipWhitespaceGas_stop (gas : Nat) (l : Lexer)
    (h : isWhitespaceCh (chAt l) = false) : skipWhitespaceGas gas l = l := by
  cases gas with
  | zero => rfl
  | succ k => simp only [skipWhitespaceGas, h, Bool.false_eq_true, if_false]

theorem readLettersGas_props (gas : Nat) (l : Lexer) :
    (readLettersGas gas l).2.input = l.input ∧
      l.position ≤ (readLettersGas gas l).2.position := by
  induction gas generalizing l with
  | zero => exact ⟨rfl, le_refl _⟩
  | succ k ih =>
    simp only [readLettersGas]
    split
    · have hrec := ih (readChar l)
      rcases hr : readLettersGas k (readChar l) with ⟨cs, l1⟩
      rw [hr] at hrec
      try dsimp only at hrec
      simp only [hr]
      try dsimp only
      have hpos : (readChar l).position = l.position + 1 := rfl
      have hin : (readChar l).input = l.input := rfl
      exact ⟨hrec.1.trans hin, by have := hrec.2; omega⟩
    · exact ⟨rfl, le_refl _⟩

theorem readLettersGas_strict (gas : Nat) (l : Lexer)
    (hc : isLetter (chAt l) = true) (hg : 1 ≤ gas) :
    l.position < (readLettersGas gas l).2.position := by
  cases gas with
  | zero => omega
  | succ k =>
    simp only [readLettersGas, hc, if_true]
    have hrec := readLettersGas_props k (readChar l)
    rcases hr : readLettersGas k (readChar l) with ⟨cs, l1⟩
    rw [hr] at hrec
    try dsimp only at hrec
    simp only [hr]
    try dsimp only
    have hpos : (readChar l).position = l.position + 1 := rfl
    have := hrec.2
    omega

theorem readLetters_props (l : Lexer) :
    (readLetters l).2.input = l.input ∧ l.position ≤ (readLetters l).2.position ∧
      (isLetter (chAt l) = true → l.position < (readLetters l).2.position) := by
  have hg := readLettersGas_props (l.input.length + 1 - l.position) l
  exact ⟨hg.1, hg.2, fun hc =>
    readLettersGas_strict _ l hc (by have := pos_lt_of_isLetter l hc; omega)⟩

theorem readDigitsGas_props (gas : Nat) (l : Lexer) :
    (readDigitsGas gas l).2.input = l.input ∧
      l.position ≤ (readDigitsGas gas l).2.position := by
  induction gas generalizing l with
  | zero => exact ⟨rfl, le_refl _⟩
  | succ k ih =>
    simp only [readDigitsGas]
    split
    · have hrec := ih (readChar l)
      rcases hr : readDigitsGas k (readChar l) with ⟨cs, l1⟩
      rw [hr] at hrec
      try dsimp only at hrec
      simp only [hr]
      try dsimp only
      have hpos : (readChar l).position = l.position + 1 := rfl
      have hin : (readChar l).input = l.input := rfl
      exact ⟨hrec.1.trans hin, by have := hrec.2; omega⟩
    · exact ⟨rfl, le_refl _⟩

theorem readDigitsGas_strict (gas : Nat) (l : Lexer)
    (hc : isDigitCh (chAt l) = true) (hg : 1 ≤ gas) :
    l.position < (readDigitsGas gas l).2.position := by
  cases gas with
  | zero => omega
  | succ k =>
    simp only [readDigitsGas, hc, if_true]
    have hrec := readDigitsGas_props k (readChar l)
    rcases hr : readDigitsGas k (readChar l) with ⟨cs, l1⟩
    rw [hr] at hrec
    try dsimp only at hrec
    simp only [hr]
    try dsimp only
    have hpos : (readChar l).position = l.position + 1 := rfl
    have := hrec.2
    omega

theorem readDigits_props (l : Lexer) :
    (readDigits l).2.input = l.input ∧ l.position ≤ (readDigits l).2.position ∧
      (isDigitCh (chAt l) = true → l.position < (readDigits l).2.position) := by
  have hg := readDigitsGas_props (l.input.length + 1 - l.position) l
  exact ⟨hg.1, hg.2, fun hc =>
    readDigitsGas_strict _ l hc (by have := pos_lt_of_isDigit l hc; omega)⟩

theorem readStringGas_props (gas : Nat) (l : Lexer) :
    (readStringGas gas l).2.input = l.input ∧
      l.position < (readStringGas gas l).2.position := by
  induction gas generalizing l with
  | zero => exact ⟨rfl, Nat.lt_succ_self _⟩
  | succ k ih =>
    simp only [readStringGas]
    split
    · exact ⟨rfl, Nat.lt_succ_self _⟩
    · have hrec := ih (readChar l)
      rcases hr : readStringGas k (readChar l) with ⟨cs, l1⟩
      rw [hr] at hrec
      try dsimp only at hrec
      simp only [hr]
      try dsimp only
      have hpos : (readChar l).position = l.position + 1 := rfl
      have hin : (readChar l).input = l.input := rfl
      exact ⟨hrec.1.trans hin, by have := hrec.2; omega⟩

theorem readStringLoop_props (l : Lexer) :
    (readStringLoop l).2.input = l.input ∧ l.position < (readStringLoop l).2.position :=
  readStringGas_props _ l

/-- The dispatch core strictly advances the cursor and leaves the input
unchanged. -/
theorem nextTokenCore_advances (l : Lexer) :
    (nextTokenCore l).2.input = l.input ∧ l.position < (nextTokenCore l).2.position := by
  have hrl := readLetters_props l
  have hrd := readDigits_props l
  have hrs := readStringLoop_props l
  unfold nextTokenCore
  by_cases h1 : (chAt l == '=') = true
  · rw [if_pos h1]
    by_cases h1p : (peekChar l == '=') = true
    · rw [if_pos h1p]
      exact ⟨rfl, by show l.position < l.position + 1 + 1; omega⟩
    · rw [if_neg h1p]
      exact ⟨rfl, Nat.lt_succ_self l.position⟩
  rw [if_neg h1]
  by_cases h2 : (chAt l == ';') = true
  · rw [if_pos h2]
    exact ⟨rfl, Nat.lt_succ_self l.position⟩
  rw [if_neg h2]
  by_cases h3 : (chAt l == '(') = true
  · rw [if_pos h3]
    exact ⟨rfl, Nat.lt_succ_self l.position⟩
  rw [if_neg h3]
  by_cases h4 : (chAt l == ')') = true
  · rw [if_pos h4]
    exact ⟨rfl, Nat.lt_succ_self l.position⟩
  rw [if_neg h4]
  by_cases h5 : (chAt l == ',') = true
  · rw [if_pos h5]
    exact ⟨rfl, Nat.lt_succ_self l.position⟩
  rw [if_neg h5]
  by_cases h6 : (chAt l == '+') = true
  · rw [if_pos h6]
    exact ⟨rfl, Nat.lt_succ_self l.position⟩
  rw [if_neg h6]
  by_cases h7 : (chAt l == '-') = true
  · rw [if_pos h7]
    exact ⟨rfl, Nat.lt_succ_self l.position⟩
  rw [if_neg h7]
  by_cases h8 : (chAt l == '!') = true
  · rw [if_pos h8]
    by_cases h8p : (peekChar l == '=') = true
    · rw [if_pos h8p]
      exact ⟨rfl, by show l.position < l.position + 1 + 1; omega⟩
    · rw [if_neg h8p]
      exact ⟨rfl, Nat.lt_succ_self l.position⟩
  rw [if_neg h8]
  by_cases h9 : (chAt l == '/') = true
  · rw [if_pos h9]
    exact ⟨rfl, Nat.lt_succ_self l.position⟩
  rw [if_neg h9]
  by_cases h10 : (chAt l == '*') = true
  · rw [if_pos h10]
    exact ⟨rfl, Nat.lt_succ_self l.position⟩
  rw [if_neg h10]
  by_cases h11 : (chAt l == '<') = true
  · rw [if_pos h11]
    exact ⟨rfl, Nat.lt_succ_self l.position⟩
  rw [if_neg h11]
  by_cases h12 : (chAt l == '>') = true
  · rw [if_pos h12]
    exact ⟨rfl, Nat.lt_succ_self l.position⟩
  rw [if_neg h12]
  by_cases h13 : (chAt l == '\x7b') = true
  · rw [if_pos h13]
    exact ⟨rfl, Nat.lt_succ_self l.position⟩
  rw [if_neg h13]
  by_cases h14 : (chAt l == '\x7d') = true
  · rw [if_pos h14]
    exact ⟨rfl, Nat.lt_succ_self l.position⟩
  rw [if_neg h14]
  by_cases h15 : (chAt l == Char.ofNat 0) = true
  · rw [if_pos h15]
    exact ⟨rfl, Nat.lt_succ_self l.position⟩
  rw [if_neg h15]
  by_cases h16 : (chAt l == '"') = true
  · rw [if_pos h16]
    exact ⟨hrs.1, by have hx := hrs.2; show l.position < (readStringLoop l).2.position + 1; omega⟩
  rw [if_neg h16]
  by_cases h17 : (chAt l == '[') = true
  · rw [if_pos h17]
    exact ⟨rfl, Nat.lt_succ_self l.position⟩
  rw [if_neg h17]
  by_cases h18 : (chAt l == ']') = true
  · rw [if_pos h18]
    exact ⟨rfl, Nat.lt_succ_self l.position⟩
  rw [if_neg h18]
  by_cases h19 : isLetter (chAt l) = true
  · rw [if_pos h19]
    exact ⟨hrl.1, hrl.2.2 h19⟩
  rw [if_neg h19]
  by_cases h20 : isDigitCh (chAt l) = true
  · rw [if_pos h20]
    exact ⟨hrd.1, hrd.2.2 h20⟩
  rw [if_neg h20]
  exact ⟨rfl, Nat.lt_succ_self l.position⟩

/-- Every NextToken call strictly advances the cursor and leaves the input
unchanged. -/
theorem nextToken_advances (l0 : Lexer) :
    (nextToken l0).2.input = l0.input ∧ l0.position < (nextToken l0).2.position := by
  have hsw := skipWhitespace_props l0
  have hc := nextTokenCore_advances (skipWhitespace l0)
  unfold nextToken
  refine ⟨hc.1.trans hsw.1, ?_⟩
  have h1 := hc.2
  have h2 := hsw.2
  omega

theorem readChar_pos (l : Lexer) : (readChar l).position = l.position + 1 := rfl

/-- Once the cursor is at or past the end of input, NextToken emits the EOF
token (empty literal) and the new state is again at or past the end, so every
later call emits EOF as well. -/
theorem nextToken_at_end (l : Lexer) (h : l.input.length ≤ l.position) :
    nextToken l = (⟨tokEOF, ""⟩, readChar l) ∧
      (readChar l).input.length ≤ (readChar l).position := by
  have h0 : skipWhitespace l = l := by
    unfold skipWhitespace
    apply skipWhitespaceGas_stop
    rw [chAt_of_ge l h]
    decide
  constructor
  · simp only [nextToken, nextTokenCore, h0, chAt_of_ge l h]
    repeat rw [if_neg (by decide)]
    rw [if_pos (by decide)]
  · simp only [readChar]
    omega

/-- The n-th emission of the token stream starting from state l (lexNth l 0
is the first token). -/
def lexNth (l : Lexer) : Nat → Token × Lexer
  | 0 => nextToken l
  | n + 1 => lexNth (nextToken l).2 n

/-- Repeated NextToken calls reach the EOF token after finitely many calls. -/
theorem lexNth_reaches_eof (l : Lexer) : ∃ n, (lexNth l n).1 = ⟨tokEOF, ""⟩ := by
  by_cases h : l.input.length ≤ l.position
  · exact ⟨0, by simp only [lexNth, (nextToken_at_end l h).1]⟩
  · have hadv := nextToken_advances l
    obtain ⟨n, hn⟩ := lexNth_reaches_eof (nextToken l).2
    exact ⟨n + 1, hn⟩
termination_by l.input.length - l.position
decreasing_by
  rw [hadv.1]
  omega


/- AST node variants (src/ast/ast.go).  Expression children that Go can
leave as nil interface values (failed sub-parses) are represented by the
explicit nilE constructor; literals keep their token literal alongside the
parsed value because String() prints the token literal. -/
mutual

inductive Expr where
  | nilE : Expr
  | ident : String → Expr
  | intLit : String → Int → Expr
  | boolLit : String → Bool → Expr
  | strLit : String → Expr
  | arrayLit : List Expr → Expr
  | prefixE : String → Expr → Expr
  | infixE : Expr → String → Expr → Expr
  | ifE : Expr → List Stmt → Option (List Stmt) → Expr
  | funcLit : List String → List Stmt → Expr
  | callE : Expr → List Expr → Expr
  | indexE : Expr → Expr → Expr

/-- Statements.  nilLet stands for the typed-nil *ast.LetStatement that
parseStatement returns when parseLetStatement fails: wrapped in the
ast.Statement interface it is not equal to nil, so ParseProgram's
stmt != nil filter does not drop it and it is appended to the program. -/
inductive Stmt where
  | nilLet : Stmt
  | letS : String → Expr → Stmt
  | returnS : Expr → Stmt
  | exprS : Expr → Stmt

end

/-- Operator precedence levels (iota block in the parser source). -/
def precLOWEST : Nat := 1

def precEQUALS : Nat := 2

def precLESSGREATER : Nat := 3

def precSUM : Nat := 4

def precPRODUCT : Nat := 5

def precPREFIX : Nat := 6

def precCALL : Nat := 7

/-- The precedences lookup table; token types absent from the table get
LOWEST (peekPrecedence/curPrecedence).  Note LBRACKET has no entry. -/
def precedenceOf (t : String) : Nat :=
  if t == tokEQ then precEQUALS
  else if t == tokNEQ then precEQUALS
  else if t == tokLT then precLESSGREATER
  else if t == tokGT then precLESSGREATER
  else if t == tokPLUS then precSUM
  else if t == tokMINUS then precSUM
  else if t == tokSLASH then precPRODUCT
  else if t == tokASTERISK then precPRODUCT
  else if t == tokLPAREN then precCALL
  else precLOWEST

/-- Parser state (the parser in src/object/environment.go): a lexer, the
two-token lookahead window and the accumulated error strings. -/
structure Parser where
  l : Lexer
  curToken : Token
  peekToken : Token
  errors : List String

/-- nextToken on the parser: shift the lookahead window by one lexer token. -/
def pNextToken (p : Parser) : Parser :=
  let r := nextToken p.l
  { l := r.2, curToken := p.peekToken, peekToken := r.1, errors := p.errors }

/-- New: construct the parser and pull two tokens so curToken and peekToken
are loaded. -/
def parserNew (lx : Lexer) : Parser :=
  pNextToken (pNextToken ⟨lx, ⟨"", ""⟩, ⟨"", ""⟩, []⟩)

def peekPrecedence (p : Parser) : Nat := precedenceOf p.peekToken.type

def curPrecedence (p : Parser) : Nat := precedenceOf p.curToken.type

/-- peekError: the message appended on an expectPeek mismatch.  The string is
exactly what the fmt.Sprintf in the source produces (its format string
begins "expectedBool", the residue of a renaming that also hit the test
file's format strings). -/
def peekErrorMsg (t : String) (got : String) : String :=
  "expectedBool next token to be " ++ t ++ ", got " ++ got ++ " instead"

def peekError (p : Parser) (t : String) : Parser :=
  { p with errors := p.errors ++ [peekErrorMsg t p.peekToken.type] }

/-- expectPeek: advance on a peek-type match, otherwise record a peekError
and report false. -/
def expectPeek (p : Parser) (t : String) : Bool × Parser :=
  if p.peekToken.type == t then (true, pNextToken p)
  else (false, peekError p t)

def noPrefixParseFnError (p : Parser) (t : String) : Parser :=
  { p with errors := p.errors ++ ["no prefix parse function for " ++ t ++ " found"] }

/-- The prefix parse function table built by New: token types with a
registered prefix function. -/
def hasPrefixFn (t : String) : Bool :=
  t == tokIDENT || t == tokINT || t == tokIF || t == tokFUNCTION ||
  t == tokSTRING || t == tokLBRACKET || t == tokBANG || t == tokMINUS ||
  t == tokTRUE || t == tokFALSE || t == tokLPAREN

/-- The infix parse function table built by New: the eight binary operator
tokens and LPAREN (call).  LBRACKET is not registered, so no index
expression is ever parsed. -/
def hasInfixFn (t : String) : Bool :=
  t == tokPLUS || t == tokMINUS || t == tokSLASH || t == tokASTERISK ||
  t == tokEQ || t == tokNEQ || t == tokLT || t == tokGT || t == tokLPAREN

/-- Go %q quoting as used by "could not parse %q as integer".  The literals
quoted here are lexer INT tokens (ASCII digit runs), for which %q just wraps
the string in double quotes. -/
def goQuote (s : String) : String := "\"" ++ s ++ "\""

/-- Digit accumulation of strconv.ParseInt for a given base: fails on the
first rune that is not a digit of the base. -/
def digitsToNat? (base : Nat) : List Char → Nat → Option Nat
  | [], acc => some acc
  | c :: cs, acc =>
    if isDigitCh c && decide (c.toNat - 48 < base) then
      digitsToNat? base cs (acc * base + (c.toNat - 48))
    else none

def maxInt64Nat : Nat := 2 ^ 63 - 1

/-- Modelled behaviour of strconv.ParseInt(s, 0, 64) (Go standard library)
on the literals this parser feeds it: lexer INT tokens, i.e. nonempty ASCII
digit runs.  With base argument 0 the base is inferred from the string: a
leading "0" followed by more digits selects octal, otherwise decimal (signs,
0x/0o/0b prefixes and underscores cannot occur in a digit run).  A digit
outside the inferred base or a value beyond the int64 range yields an error
(none). -/
def goParseInt0Core : List Char → Option Int
  | [] => none
  | c :: rest =>
    if c == '0' && !rest.isEmpty then
      match digitsToNat? 8 rest 0 with
      | some n => if n ≤ maxInt64Nat then some (Int.ofNat n) else none
      | none => none
    else
      match digitsToNat? 10 (c :: rest) 0 with
      | some n => if n ≤ maxInt64Nat then some (Int.ofNat n) else none
      | none => none

def goParseInt0 (s : String) : Option Int := goParseInt0Core s.toList

/-- parseIdentifier. -/
def parseIdentifier (p : Parser) : Expr × Parser :=
  (Expr.ident p.curToken.literal, p)

/-- parseIntegerLiteral: strconv.ParseInt with base 0 (the comment in the
source says the base is inferred from the string); on error record
"could not parse %q as integer" and return nil. -/
def parseIntegerLiteral (p : Parser) : Expr × Parser :=
  match goParseInt0 p.curToken.literal with
  | some v => (Expr.intLit p.curToken.literal v, p)
  | none =>
    (Expr.nilE,
      { p with errors :=
          p.errors ++ ["could not parse " ++ goQuote p.curToken.literal ++ " as integer"] })

/-- parseBoolean: Value is true exactly when the literal is "true" (a
literal that is neither "true" nor "false" leaves the zero value false). -/
def parseBoolean (p : Parser) : Expr × Parser :=
  (Expr.boolLit p.curToken.literal (p.curToken.literal == "true"), p)

/-- parseStringLiteral. -/
def parseStringLiteral (p : Parser) : Expr × Parser :=
  (Expr.strLit p.curToken.literal, p)


/- The Pratt parser proper (the parser in src/object/environment.go).  Its
recursion is through the two registration tables, so the Lean embedding
carries an explicit fuel argument; every recursive call spends one unit.
With fuel at least the token count of the input no branch ever runs dry for
inputs the Go parser terminates on, and all uses below pass ample fuel. -/
mutual

/-- parseExpression: look up the prefix function for curToken (recording
"no prefix parse function for T found" and returning nil when absent), then
fold infix parses while the next token binds tighter. -/
def parseExpression : Nat → Parser → Nat → Expr × Parser
  | 0, p, _ => (Expr.nilE, p)
  | fuel + 1, p, prec =>
    if hasPrefixFn p.curToken.type then
      let r := callPrefixFn fuel p
      parseExpressionLoop fuel r.2 prec r.1
    else (Expr.nilE, noPrefixParseFnError p p.curToken.type)

/-- The for-loop of parseExpression: while peek is not SEMICOLON and the
given precedence is below peekPrecedence, dispatch the registered infix
function (returning left unchanged when none is registered). -/
def parseExpressionLoop : Nat → Parser → Nat → Expr → Expr × Parser
  | 0, p, _, left => (left, p)
  | fuel + 1, p, prec, left =>
    if !(p.peekToken.type == tokSEMICOLON) && decide (prec < peekPrecedence p) then
      if hasInfixFn p.peekToken.type then
        let p1 := pNextToken p
        let r := callInfixFn fuel p1 left
        parseExpressionLoop fuel r.2 prec r.1
      else (left, p)
    else (left, p)

/-- Dispatch of the prefix registrations made in New (guarded by
hasPrefixFn; the final branch is unreachable). -/
def callPrefixFn : Nat → Parser → Expr × Parser
  | 0, p => (Expr.nilE, p)
  | fuel + 1, p =>
    if p.curToken.type == tokIDENT then parseIdentifier p
    else if p.curToken.type == tokINT then parseIntegerLiteral p
    else if p.curToken.type == tokIF then parseIfExpression fuel p
    else if p.curToken.type == tokFUNCTION then parseFunctionLiteral fuel p
    else if p.curToken.type == tokSTRING then parseStringLiteral p
    else if p.curToken.type == tokLBRACKET then parseArrayLiteral fuel p
    else if p.curToken.type == tokBANG || p.curToken.type == tokMINUS then
      parsePrefixExpression fuel p
    else if p.curToken.type == tokTRUE || p.curToken.type == tokFALSE then
      parseBoolean p
    else if p.curToken.type == tokLPAREN then parseGroupedExpression fuel p
    else (Expr.nilE, p)

/-- Dispatch of the infix registrations made in New, on curToken after the
loop advanced (guarded by hasInfixFn: LPAREN is the call expression, the
eight operator tokens share parseInfixExpression). -/
def callInfixFn : Nat → Parser → Expr → Expr × Parser
  | 0, p, left => (left, p)
  | fuel + 1, p, left =>
    if p.curToken.type == tokLPAREN then parseCallExpression fuel p left
    else parseInfixExpression fuel p left

/-- parsePrefixExpression: record the operator, advance, parse the operand
at PREFIX precedence. -/
def parsePrefixExpression : Nat → Parser → Expr × Parser
  | 0, p => (Expr.nilE, p)
  | fuel + 1, p =>
    let op := p.curToken.literal
    let p1 := pNextToken p
    let r := parseExpression fuel p1 precPREFIX
    (Expr.prefixE op r.1, r.2)

/-- parseInfixExpression: capture the current precedence, advance, parse the
right operand at that precedence. -/
def parseInfixExpression : Nat → Parser → Expr → Expr × Parser
  | 0, p, left => (left, p)
  | fuel + 1, p, left =>
    let op := p.curToken.literal
    let prec := curPrecedence p
    let p1 := pNextToken p
    let r := parseExpression fuel p1 prec
    (Expr.infixE left op r.1, r.2)

/-- parseGroupedExpression: advance, parse at LOWEST, require RPAREN (nil on
mismatch). -/
def parseGroupedExpression : Nat → Parser → Expr × Parser
  | 0, p => (Expr.nilE, p)
  | fuel + 1, p =>
    let p1 := pNextToken p
    let r := parseExpression fuel p1 precLOWEST
    let e := expectPeek r.2 tokRPAREN
    if e.1 then (r.1, e.2) else (Expr.nilE, e.2)

/-- parseIfExpression: require LPAREN, parse the condition at LOWEST,
require RPAREN and LBRACE, parse the consequence block, and parse an
alternative block when ELSE follows (requiring its LBRACE). -/
def parseIfExpression : Nat → Parser → Expr × Parser
  | 0, p => (Expr.nilE, p)
  | fuel + 1, p =>
    let e1 := expectPeek p tokLPAREN
    if !e1.1 then (Expr.nilE, e1.2) else
    let p1 := pNextToken e1.2
    let rc := parseExpression fuel p1 precLOWEST
    let e2 := expectPeek rc.2 tokRPAREN
    if !e2.1 then (Expr.nilE, e2.2) else
    let e3 := expectPeek e2.2 tokLBRACE
    if !e3.1 then (Expr.nilE, e3.2) else
    let rb := parseBlockStatement fuel e3.2
    if rb.2.peekToken.type == tokELSE then
      let p2 := pNextToken rb.2
      let e4 := expectPeek p2 tokLBRACE
      if !e4.1 then (Expr.nilE, e4.2) else
      let ra := parseBlockStatement fuel e4.2
      (Expr.ifE rc.1 rb.1 (some ra.1), ra.2)
    else (Expr.ifE rc.1 rb.1 none, rb.2)

/-- parseBlockStatement: entered on LBRACE; advance, then accumulate
statements until RBRACE or EOF. -/
def parseBlockStatement : Nat → Parser → List Stmt × Parser
  | 0, p => ([], p)
  | fuel + 1, p => parseBlockLoop fuel (pNextToken p)

/-- The accumulation loop of parseBlockStatement.  Every parsed statement is
appended: parseStatement hands back a non-nil interface even for a failed
let statement (see Stmt.nilLet). -/
def parseBlockLoop : Nat → Parser → List Stmt × Parser
  | 0, p => ([], p)
  | fuel + 1, p =>
    if !(p.curToken.type == tokRBRACE) && !(p.curToken.type == tokEOF) then
      let rs := parseStatement fuel p
      let p1 := pNextToken rs.2
      let rest := parseBlockLoop fuel p1
      (rs.1 :: rest.1, rest.2)
    else ([], p)

/-- parseStatement: LET and RETURN statements, defaulting to an expression
statement.  A failed let parse surfaces as the typed-nil Stmt.nilLet. -/
def parseStatement : Nat → Parser → Stmt × Parser
  | 0, p => (Stmt.nilLet, p)
  | fuel + 1, p =>
    if p.curToken.type == tokLET then
      let r := parseLetStatement fuel p
      (match r.1 with
       | some s => s
       | none => Stmt.nilLet, r.2)
    else if p.curToken.type == tokRETURN then parseReturnStatement fuel p
    else parseExpressionStatement fuel p

/-- parseLetStatement: require IDENT (capturing the name) and ASSIGN, then
parse the value at LOWEST and optionally consume a SEMICOLON; none marks a
parse failure (the source returns nil). -/
def parseLetStatement : Nat → Parser → Option Stmt × Parser
  | 0, p => (none, p)
  | fuel + 1, p =>
    let e1 := expectPeek p tokIDENT
    if !e1.1 then (none, e1.2) else
    let name := e1.2.curToken.literal
    let e2 := expectPeek e1.2 tokASSIGN
    if !e2.1 then (none, e2.2) else
    let p1 := pNextToken e2.2
    let r := parseExpression fuel p1 precLOWEST
    let p2 := if r.2.peekToken.type == tokSEMICOLON then pNextToken r.2 else r.2
    (some (Stmt.letS name r.1), p2)

/-- parseReturnStatement: advance past return, parse the value at LOWEST,
optionally consume a SEMICOLON. -/
def parseReturnStatement : Nat → Parser → Stmt × Parser
  | 0, p => (Stmt.nilLet, p)
  | fuel + 1, p =>
    let p1 := pNextToken p
    let r := parseExpression fuel p1 precLOWEST
    let p2 := if r.2.peekToken.type == tokSEMICOLON then pNextToken r.2 else r.2
    (Stmt.returnS r.1, p2)

/-- parseExpressionStatement: parse at LOWEST, optionally consume a
SEMICOLON. -/
def parseExpressionStatement : Nat → Parser → Stmt × Parser
  | 0, p => (Stmt.nilLet, p)
  | fuel + 1, p =>
    let r := parseExpression fuel p precLOWEST
    let p2 := if r.2.peekToken.type == tokSEMICOLON then pNextToken r.2 else r.2
    (Stmt.exprS r.1, p2)

/-- parseFunctionLiteral: require LPAREN, parse the parameters, require
LBRACE, parse the body block. -/
def parseFunctionLiteral : Nat → Parser → Expr × Parser
  | 0, p => (Expr.nilE, p)
  | fuel + 1, p =>
    let e1 := expectPeek p tokLPAREN
    if !e1.1 then (Expr.nilE, e1.2) else
    let rp := parseFunctionParameters fuel e1.2
    let e2 := expectPeek rp.2 tokLBRACE
    if !e2.1 then (Expr.nilE, e2.2) else
    let rb := parseBlockStatement fuel e2.2
    (Expr.funcLit rp.1 rb.1, rb.2)

/-- parseFunctionParameters: an empty list when RPAREN follows immediately;
otherwise collect curToken literals separated by COMMA and require RPAREN
(the source returns a nil slice on mismatch; nil and the empty slice are
indistinguishable to every consumer). -/
def parseFunctionParameters : Nat → Parser → List String × Parser
  | 0, p => ([], p)
  | fuel + 1, p =>
    if p.peekToken.type == tokRPAREN then ([], pNextToken p)
    else
      let p1 := pNextToken p
      let first := p1.curToken.literal
      let r := parseFunctionParamsLoop fuel p1
      let e := expectPeek r.2 tokRPAREN
      if e.1 then (first :: r.1, e.2) else ([], e.2)

/-- The while-COMMA loop of parseFunctionParameters. -/
def parseFunctionParamsLoop : Nat → Parser → List String × Parser
  | 0, p => ([], p)
  | fuel + 1, p =>
    if p.peekToken.type == tokCOMMA then
      let p1 := pNextToken (pNextToken p)
      let id := p1.curToken.literal
      let r := parseFunctionParamsLoop fuel p1
      (id :: r.1, r.2)
    else ([], p)

/-- parseCallExpression: arguments via parseExpressionList(RPAREN). -/
def parseCallExpression : Nat → Parser → Expr → Expr × Parser
  | 0, p, _ => (Expr.nilE, p)
  | fuel + 1, p, function =>
    let r := parseExpressionList fuel p tokRPAREN
    (Expr.callE function r.1, r.2)

/-- parseArrayLiteral: elements via parseExpressionList(RBRACKET). -/
def parseArrayLiteral : Nat → Parser → Expr × Parser
  | 0, p => (Expr.nilE, p)
  | fuel + 1, p =>
    let r := parseExpressionList fuel p tokRBRACKET
    (Expr.arrayLit r.1, r.2)

/-- parseExpressionList: empty when the end token follows immediately;
otherwise parse LOWEST expressions separated by COMMA and require the end
token (nil slice on mismatch, as with parameters). -/
def parseExpressionList : Nat → Parser → String → List Expr × Parser
  | 0, p, _ => ([], p)
  | fuel + 1, p, endTok =>
    if p.peekToken.type == endTok then ([], pNextToken p)
    else
      let p1 := pNextToken p
      let r0 := parseExpression fuel p1 precLOWEST
      let r := parseExpressionListLoop fuel r0.2
      let e := expectPeek r.2 endTok
      if e.1 then (r0.1 :: r.1, e.2) else ([], e.2)

/-- The while-COMMA loop of parseExpressionList. -/
def parseExpressionListLoop : Nat → Parser → List Expr × Parser
  | 0, p => ([], p)
  | fuel + 1, p =>
    if p.peekToken.type == tokCOMMA then
      let p1 := pNextToken (pNextToken p)
      let r0 := parseExpression fuel p1 precLOWEST
      let r := parseExpressionListLoop fuel r0.2
      (r0.1 :: r.1, r.2)
    else ([], p)

/-- ParseProgram's statement loop: parse statements until curToken is EOF,
advancing once after each (every statement is appended, see
parseStatement). -/
def parseProgramLoop : Nat → Parser → List Stmt × Parser
  | 0, p => ([], p)
  | fuel + 1, p =>
    if p.curToken.type == tokEOF then ([], p)
    else
      let rs := parseStatement fuel p
      let p1 := pNextToken rs.2
      let rest := parseProgramLoop fuel p1
      (rs.1 :: rest.1, rest.2)

end

/-- The full parse pipeline: lexer.New, parser.New, ParseProgram, returning
the program statements together with the final parser (whose errors field is
the parser error list). -/
def parseWith (fuel : Nat) (input : String) : List Stmt × Parser :=
  parseProgramLoop fuel (parserNew (lexerNew input.toList))


/- The String() serialization of AST nodes (src/ast/ast.go).  Literals print
their token literal; let/return print the "let"/"return" token literal the
parser stored; FunctionLiteral prints its "fn" token literal (the parser
only constructs it from the FUNCTION token).  A Go nil expression child
would panic in the unguarded String() calls of composite nodes and is
printed here as ""; LetStatement, ReturnStatement and ExpressionStatement
guard their child with a nil check whose effect is the same "".  These
functions are used below only on parser outputs free of nil children. -/
/-- strings.Join(xs, ", ") as used for call arguments and array elements. -/
def joinComma (xs : List String) : String := String.intercalate ", " xs

/-- strings.Join(xs, ",") as used for function literal parameters. -/
def joinCommaTight (xs : List String) : String := String.intercalate "," xs

mutual

def exprString : Expr → String
  | Expr.nilE => ""
  | Expr.ident v => v
  | Expr.intLit lit _ => lit
  | Expr.boolLit lit _ => lit
  | Expr.strLit lit => lit
  | Expr.arrayLit es => "[" ++ joinComma (exprStringList es) ++ "]"
  | Expr.prefixE op r => "(" ++ op ++ exprString r ++ ")"
  | Expr.infixE l op r =>
    "(" ++ exprString l ++ " " ++ op ++ " " ++ exprString r ++ ")"
  | Expr.ifE c cons alt =>
    "if" ++ exprString c ++ " " ++ blockString cons ++
      (match alt with
       | some a => "else " ++ blockString a
       | none => "")
  | Expr.funcLit ps body =>
    "fn" ++ "(" ++ joinCommaTight ps ++ ") " ++ blockString body
  | Expr.callE f args =>
    exprString f ++ "(" ++ joinComma (exprStringList args) ++ ")"
  | Expr.indexE l i => "(" ++ exprString l ++ "[" ++ exprString i ++ "])"

def exprStringList : List Expr → List String
  | [] => []
  | e :: es => exprString e :: exprStringList es

def stmtString : Stmt → String
  | Stmt.nilLet => ""
  | Stmt.letS n v => "let " ++ n ++ " = " ++ exprString v ++ ";"
  | Stmt.returnS v => "return " ++ exprString v ++ ";"
  | Stmt.exprS v => exprString v

/-- BlockStatement.String and Program.String: concatenation of the statement
strings. -/
def blockString : List Stmt → String
  | [] => ""
  | s :: ss => stmtString s ++ blockString ss

end


/-- Runtime values (src/object/object.go).  All objects live behind pointers
in Go and the == operator of the language compares interface identity, so
the two heap-allocated variants that can reach an identity comparison
(ReturnValue and Function) carry an allocation id drawn from a counter in
the evaluation state: two values are identical in Go exactly when their ids
coincide.  TRUE, FALSE and NULL are process-wide singletons, so structural
equality on boolean/null agrees with identity; two Integer objects never
meet an identity comparison (the both-INTEGER branch compares values), and
Error objects never reach one (errors propagate first).  The Function
variant (parameters, body, captured environment) follows its uses in
src/evaluator/evaluator.go and spec section 3.3; its struct declaration is
not under src/.  A ReturnValue may wrap the nil object (none). -/
inductive Obj where
  | integer : Int → Obj
  | boolean : Bool → Obj
  | null : Obj
  | returnValue : Nat → Option Obj → Obj
  | error : String → Obj
  | function : Nat → List String → List Stmt → Nat → Obj

/-- Object.Type() tags.  FUNCTION_OBJ is modelled from the spec (section
3.3), the others are the constants in src/object/object.go. -/
def TypeOf : Obj → String
  | Obj.integer _ => "INTEGER"
  | Obj.boolean _ => "BOOLEAN"
  | Obj.null => "NULL"
  | Obj.returnValue _ _ => "RETURN_VALUE"
  | Obj.error _ => "ERROR"
  | Obj.function _ _ _ _ => "FUNCTION"

/-- One environment scope (Environment in src/unnamed/part_000): a
name-to-object map plus an optional outer scope.  Scopes are mutated through
shared references, so they live in a store (EState) and are denoted by their
index; outer is an index into the same store.  A map entry may hold Go's nil
object (none): evalExpressions can produce nil elements that Let or a call
binds. -/
structure Scope where
  store : List (String × Option Obj)
  outer : Option Nat

/-- The mutable evaluation state: the allocated scopes (an environment value
is an index into this list) and the allocation counter for identity ids. -/
structure EState where
  scopes : List Scope
  nextId : Nat

/-- NewEnvironment: one fresh empty scope with no outer, denoted by index 0
in the initial state. -/
def initState : EState := ⟨[⟨[], none⟩], 0⟩

/-- Go map assignment m[name] = v on an association list. -/
def assocSet (name : String) (v : Option Obj) :
    List (String × Option Obj) → List (String × Option Obj)
  | [] => [(name, v)]
  | (k, w) :: rest =>
    if k == name then (k, v) :: rest else (k, w) :: assocSet name v rest

/-- Go map lookup m[name] (some hit distinguishes a stored nil from a
miss). -/
def assocFind (name : String) :
    List (String × Option Obj) → Option (Option Obj)
  | [] => none
  | (k, w) :: rest => if k == name then some w else assocFind name rest

/-- Update the scope at a given index in the store. -/
def scopesSet : List Scope → Nat → String → Option Obj → List Scope
  | [], _, _, _ => []
  | sc :: rest, 0, name, v => { sc with store := assocSet name v sc.store } :: rest
  | sc :: rest, i + 1, name, v => sc :: scopesSet rest i name v

/-- Environment.Set: write into the given scope only. -/
def envSet (st : EState) (env : Nat) (name : String) (v : Option Obj) : EState :=
  { st with scopes := scopesSet st.scopes env name v }

/-- Environment.Get: search the scope's own map first and on a miss recurse
into outer.  The chain walk is bounded by the number of scopes: every scope
the API creates has its outer strictly below its own index
(NewEnclosedEnvironment appends the new scope after its outer), so the chain
is acyclic and the bound is never the reason a lookup fails. -/
def envLookup (st : EState) : Nat → Nat → String → Option (Option Obj)
  | 0, _, _ => none
  | gas + 1, env, name =>
    match st.scopes.get? env with
    | none => none
    | some sc =>
      match assocFind name sc.store with
      | some v => some v
      | none =>
        match sc.outer with
        | some o => envLookup st gas o name
        | none => none

def envGet (st : EState) (env : Nat) (name : String) : Option (Option Obj) :=
  envLookup st st.scopes.length env name

/-- NewEnclosedEnvironment: a fresh empty scope whose outer is the given
environment; it is appended to the store and denoted by the old length. -/
def newEnclosedEnvironment (st : EState) (outer : Nat) : Nat × EState :=
  (st.scopes.length, { st with scopes := st.scopes ++ [⟨[], some outer⟩] })

/-- isError: non-nil with tag ERROR. -/
def isErrorV : Option Obj → Bool
  | some (Obj.error _) => true
  | _ => false

/-- isTruthy: the switch compares the condition against the NULL, TRUE and
FALSE singletons and defaults to true (Go's nil interface also falls to the
default). -/
def isTruthy : Option Obj → Bool
  | some Obj.null => false
  | some (Obj.boolean true) => true
  | some (Obj.boolean false) => false
  | _ => true

/-- nativeBoolToBooleanObject: the TRUE/FALSE singletons. -/
def nativeBoolToBooleanObject (b : Bool) : Obj := Obj.boolean b

/-- Go interface identity left == right for the operands the == / != cases
can see (see the Obj doc comment for why this structural test coincides with
pointer identity there). -/
def objEq : Obj → Obj → Bool
  | Obj.integer a, Obj.integer b => a == b
  | Obj.boolean a, Obj.boolean b => a == b
  | Obj.null, Obj.null => true
  | Obj.returnValue i _, Obj.returnValue j _ => i == j
  | Obj.error a, Obj.error b => a == b
  | Obj.function i _ _ _, Obj.function j _ _ _ => i == j
  | _, _ => false

/-- Identity comparison lifted to possibly-nil operands (a nil interface is
equal only to nil; the left operand is non-nil whenever this is reached). -/
def optObjEq : Option Obj → Option Obj → Bool
  | some a, some b => objEq a b
  | none, none => true
  | _, _ => false

/-- Two's-complement wraparound of Go's int64 arithmetic. -/
def wrap64 (x : Int) : Int := (x + 2 ^ 63) % 2 ^ 64 - 2 ^ 63

/-- Go integer division truncates toward zero (the quotient of the absolute
values, negated when the signs differ).  Callers guard against b = 0. -/
def goQuot (a b : Int) : Int :=
  if (decide (a < 0)) == (decide (b < 0)) then Int.ofNat (a.natAbs / b.natAbs)
  else - Int.ofNat (a.natAbs / b.natAbs)


/-- evalBangOperatorExpression: the switch compares against the singletons
and defaults to FALSE (a nil operand also falls to the default). -/
def evalBangOperatorExpression : Option Obj → Obj
  | some (Obj.boolean true) => Obj.boolean false
  | some (Obj.boolean false) => Obj.boolean true
  | some Obj.null => Obj.boolean true
  | _ => Obj.boolean false

/-- evalMinusPrefixOperatorExpression.  none models the run-time panic of
calling Type() on a nil interface. -/
def evalMinusPrefixOperatorExpression : Option Obj → Option Obj
  | none => none
  | some (Obj.integer v) => some (Obj.integer (wrap64 (-v)))
  | some r => some (Obj.error ("unknown operator: -" ++ TypeOf r))

/-- evalPrefixExpression: dispatch on the operator (none models a panic from
formatting the error with a nil operand's Type()). -/
def evalPrefixExpression (op : String) (right : Option Obj) : Option Obj :=
  if op == "!" then some (evalBangOperatorExpression right)
  else if op == "-" then evalMinusPrefixOperatorExpression right
  else
    match right with
    | none => none
    | some r => some (Obj.error ("unknown operator: " ++ op ++ TypeOf r))

/-- evalIntegerInfixExpression on the two int64 payloads.  none models the
run-time panic of Go's integer division by zero (the quotient is otherwise
truncated toward zero, with int64 wraparound: MinInt64 / -1 = MinInt64 per
the Go spec). -/
def evalIntegerInfixExpression (op : String) (a b : Int) : Option Obj :=
  if op == "+" then some (Obj.integer (wrap64 (a + b)))
  else if op == "-" then some (Obj.integer (wrap64 (a - b)))
  else if op == "*" then some (Obj.integer (wrap64 (a * b)))
  else if op == "/" then
    if b == 0 then none else some (Obj.integer (wrap64 (goQuot a b)))
  else if op == "<" then some (nativeBoolToBooleanObject (decide (a < b)))
  else if op == ">" then some (nativeBoolToBooleanObject (decide (b < a)))
  else if op == "==" then some (nativeBoolToBooleanObject (a == b))
  else if op == "!=" then some (nativeBoolToBooleanObject (!(a == b)))
  else some (Obj.error ("unknown operator: INTEGER " ++ op ++ " INTEGER"))

/-- evalInfixExpression.  The switch's first case guard evaluates
left.Type() unconditionally (panicking on a nil left) and evaluates
right.Type() whenever left is an Integer (panicking on a nil right); the
identity == / != cases never call Type(), the type-mismatch and
unknown-operator cases call it on both sides.  none models those panics. -/
def evalInfixExpression (op : String) (left right : Option Obj) : Option Obj :=
  match left with
  | none => none
  | some (Obj.integer a) =>
    match right with
    | none => none
    | some (Obj.integer b) => evalIntegerInfixExpression op a b
    | some r =>
      if op == "==" then some (nativeBoolToBooleanObject (objEq (Obj.integer a) r))
      else if op == "!=" then some (nativeBoolToBooleanObject (!objEq (Obj.integer a) r))
      else some (Obj.error ("type mismatch: INTEGER " ++ op ++ " " ++ TypeOf r))
  | some l =>
    if op == "==" then some (nativeBoolToBooleanObject (optObjEq (some l) right))
    else if op == "!=" then some (nativeBoolToBooleanObject (!optObjEq (some l) right))
    else
      match right with
      | none => none
      | some r =>
        if !(TypeOf l == TypeOf r) then
          some (Obj.error ("type mismatch: " ++ TypeOf l ++ " " ++ op ++ " " ++ TypeOf r))
        else
          some (Obj.error ("unknown operator: " ++ TypeOf l ++ " " ++ op ++ " " ++ TypeOf r))

/-- unwrapReturnValue: strip one ReturnValue wrapper if present. -/
def unwrapReturnValue : Option Obj → Option Obj
  | some (Obj.returnValue _ v) => v
  | v => v

/-- The interrupt test of evalBlockStatement: result non-nil with tag
RETURN_VALUE or ERROR. -/
def isReturnOrError : Option Obj → Bool
  | some o => TypeOf o == "RETURN_VALUE" || TypeOf o == "ERROR"
  | none => false

/-- Outcome of an evaluation: a Go value (possibly the nil interface) with
the updated state, a run-time panic, or fuel exhaustion of the embedding. -/
inductive Res where
  | ok : Option Obj → EState → Res
  | panicked : Res
  | nofuel : Res

/-- Outcome of evalExpressions (a list of values). -/
inductive ResL where
  | ok : List (Option Obj) → EState → ResL
  | panicked : ResL
  | nofuel : ResL

/-- extendFunctionEnv's binding loop: Set each parameter name to the
positional argument.  The caller has already panicked when the arguments
undersupply the parameters, so the second pattern is unreachable; excess
arguments are ignored as in the source. -/
def bindParams (st : EState) (env : Nat) : List String → List (Option Obj) → EState
  | [], _ => st
  | _ :: _, [] => st
  | pname :: ps, a :: rest => bindParams (envSet st env pname a) env ps rest

mutual

/-- Eval on expression nodes (src/evaluator/evaluator.go).  AST variants
without an Eval case (StringLiteral, ArrayLiteral, IndexExpression, and a
nil node) fall off the type switch and return the nil interface. -/
def evalExpr : Nat → EState → Nat → Expr → Res
  | 0, _, _, _ => Res.nofuel
  | fuel + 1, st, env, e =>
    match e with
    | Expr.nilE => Res.ok none st
    | Expr.intLit _ v => Res.ok (some (Obj.integer v)) st
    | Expr.boolLit _ b => Res.ok (some (nativeBoolToBooleanObject b)) st
    | Expr.strLit _ => Res.ok none st
    | Expr.arrayLit _ => Res.ok none st
    | Expr.indexE _ _ => Res.ok none st
    | Expr.ident name =>
      match envGet st env name with
      | some v => Res.ok v st
      | none => Res.ok (some (Obj.error ("identifier not found: " ++ name))) st
    | Expr.prefixE op r =>
      match evalExpr fuel st env r with
      | Res.ok rv st1 =>
        if isErrorV rv then Res.ok rv st1
        else
          match evalPrefixExpression op rv with
          | some v => Res.ok (some v) st1
          | none => Res.panicked
      | r1 => r1
    | Expr.infixE l op r =>
      match evalExpr fuel st env l with
      | Res.ok lv st1 =>
        if isErrorV lv then Res.ok lv st1
        else
          match evalExpr fuel st1 env r with
          | Res.ok rv st2 =>
            if isErrorV rv then Res.ok rv st2
            else
              match evalInfixExpression op lv rv with
              | some v => Res.ok (some v) st2
              | none => Res.panicked
          | r2 => r2
      | r1 => r1
    | Expr.ifE c cons alt =>
      match evalExpr fuel st env c with
      | Res.ok cv st1 =>
        if isTruthy cv then evalBlock fuel st1 env cons
        else
          match alt with
          | some a => evalBlock fuel st1 env a
          | none => Res.ok (some Obj.null) st1
      | r1 => r1
    | Expr.funcLit params body =>
      Res.ok (some (Obj.function st.nextId params body env))
        { st with nextId := st.nextId + 1 }
    | Expr.callE f args =>
      match evalExpr fuel st env f with
      | Res.ok fv st1 =>
        if isErrorV fv then Res.ok fv st1
        else
          match evalExpressions fuel st1 env args with
          | ResL.ok argvs st2 =>
            if argvs.length == 1 && isErrorV (argvs.headD none) then
              Res.ok (argvs.headD none) st2
            else applyFunction fuel st2 fv argvs
          | ResL.panicked => Res.panicked
          | ResL.nofuel => Res.nofuel
      | r1 => r1
termination_by structural fuel _ _ _ => fuel

/-- Eval on statement nodes.  A LetStatement returns the nil interface after
setting the binding (the case has no return, so Eval falls through to
return nil); the typed-nil let statement dereferences its nil receiver and
panics. -/
def evalStmt : Nat → EState → Nat → Stmt → Res
  | 0, _, _, _ => Res.nofuel
  | fuel + 1, st, env, s =>
    match s with
    | Stmt.exprS e => evalExpr fuel st env e
    | Stmt.returnS e =>
      match evalExpr fuel st env e with
      | Res.ok v st1 =>
        if isErrorV v then Res.ok v st1
        else
          Res.ok (some (Obj.returnValue st1.nextId v)) { st1 with nextId := st1.nextId + 1 }
      | r => r
    | Stmt.letS name e =>
      match evalExpr fuel st env e with
      | Res.ok v st1 =>
        if isErrorV v then Res.ok v st1
        else Res.ok none (envSet st1 env name v)
      | r => r
    | Stmt.nilLet => Res.panicked
termination_by structural fuel _ _ _ => fuel

/-- evalBlockStatement: run statements in order; return the first result
that is non-nil with tag RETURN_VALUE or ERROR without unwrapping,
otherwise the last statement's result (nil for an empty block). -/
def evalBlock : Nat → EState → Nat → List Stmt → Res
  | 0, _, _, _ => Res.nofuel
  | fuel + 1, st, env, stmts =>
    match stmts with
    | [] => Res.ok none st
    | s :: rest =>
    match evalStmt fuel st env s with
    | Res.ok v st1 =>
      if isReturnOrError v then Res.ok v st1
      else
        match rest with
        | [] => Res.ok v st1
        | _ => evalBlock fuel st1 env rest
    | r => r
termination_by structural fuel _ _ _ => fuel

/-- evalProgram: run statements in order; unwrap the first ReturnValue and
return its payload, return the first Error unchanged, otherwise the last
statement's result. -/
def evalProgStmts : Nat → EState → Nat → List Stmt → Res
  | 0, _, _, _ => Res.nofuel
  | fuel + 1, st, env, stmts =>
    match stmts with
    | [] => Res.ok none st
    | s :: rest =>
    match evalStmt fuel st env s with
    | Res.ok v st1 =>
      match v with
      | some (Obj.returnValue _ inner) => Res.ok inner st1
      | some (Obj.error m) => Res.ok (some (Obj.error m)) st1
      | _ =>
        match rest with
        | [] => Res.ok v st1
        | _ => evalProgStmts fuel st1 env rest
    | r => r
termination_by structural fuel _ _ _ => fuel

/-- evalExpressions: evaluate arguments left to right; on the first Error
return a one-element list holding it. -/
def evalExpressions : Nat → EState → Nat → List Expr → ResL
  | 0, _, _, _ => ResL.nofuel
  | fuel + 1, st, env, exps =>
    match exps with
    | [] => ResL.ok [] st
    | e :: rest =>
    match evalExpr fuel st env e with
    | Res.ok v st1 =>
      if isErrorV v then ResL.ok [v] st1
      else
        match evalExpressions fuel st1 env rest with
        | ResL.ok vs st2 => ResL.ok (v :: vs) st2
        | r => r
    | Res.panicked => ResL.panicked
    | Res.nofuel => ResL.nofuel
termination_by structural fuel _ _ _ => fuel

/-- applyFunction: a non-Function callee yields the not-a-function error
(panicking when the callee is the nil interface, whose Type() call crashes);
otherwise evaluate the body in a fresh environment enclosed over the
captured one (extendFunctionEnv, panicking on argument undersupply exactly
where args[paramIdx] would be out of range) and unwrap one ReturnValue. -/
def applyFunction : Nat → EState → Option Obj → List (Option Obj) → Res
  | 0, _, _, _ => Res.nofuel
  | fuel + 1, st, fn, args =>
    match fn with
    | some (Obj.function _ params body fenv) =>
      if decide (args.length < params.length) then Res.panicked
      else
        let r := newEnclosedEnvironment st fenv
        let st1 := bindParams r.2 r.1 params args
        match evalBlock fuel st1 r.1 body with
        | Res.ok v st2 => Res.ok (unwrapReturnValue v) st2
        | r2 => r2
    | some o => Res.ok (some (Obj.error ("not a function: " ++ TypeOf o))) st
    | none => Res.panicked
termination_by structural fuel _ _ _ => fuel

end

/-- The full pipeline on a source string: lexer.New, parser.New,
ParseProgram, then Eval of the Program node in a fresh NewEnvironment (the
concrete programs used below are separately checked to parse with an empty
error list). -/
def runProgram (fuel : Nat) (input : String) : Res :=
  evalProgStmts fuel initState 0 (parseWith fuel input).1

/-- The Type() tag of a pipeline outcome's value, when there is one. -/
def resTag : Res → Option String
  | Res.ok (some o) _ => some (TypeOf o)
  | _ => none

/-- The value of an evaluation outcome, forgetting the final state. -/
def resVal : Res → Option (Option Obj)
  | Res.ok v _ => some v
  | _ => none


/-- The decimal value of a digit string (the claim's phrase "the decimal
value of the digit string"): the base-10 positional fold.  This is a
spec-side definition used to compare parseIntegerLiteral against the
claimed base-10 reading. -/
def specDecimalVal (cs : List Char) : Nat :=
  cs.foldl (fun a c => a * 10 + (c.toNat - 48)) 0

theorem digitsToNat?_base10 (cs : List Char) (hd : ∀ c ∈ cs, isDigitCh c = true) :
    ∀ acc, digitsToNat? 10 cs acc =
      some (cs.foldl (fun a c => a * 10 + (c.toNat - 48)) acc) := by
  induction cs with
  | nil => intro acc; rfl
  | cons c cs ih =>
    intro acc
    have hc : isDigitCh c = true := hd c (List.mem_cons_self c cs)
    have hlt : c.toNat - 48 < 10 := by
      simp only [isDigitCh, Bool.and_eq_true, decide_eq_true_eq] at hc
      have h9 : c.toNat ≤ 57 := hc.2
      omega
    simp only [digitsToNat?, hc, List.foldl_cons]
    rw [if_pos (by simp [hlt])]
    exact ih (fun x hx => hd x (List.mem_cons_of_mem c hx)) _


/-- C3: parsing `let = 5;` does record a mismatch error for the IDENT
expectation (followed by the no-prefix error the recovery loop adds), but
the recorded string begins "expectedBool", not the "expected" the spec
promises: the fmt.Sprintf format string in peekError was caught by a
renaming (the parser test file shows the same "expectedBool=%q" residue),
so the claim's exact message never appears in the error list. -/
theorem c3_peek_error_message :
    (parseWith 50 "let = 5;").2.errors =
      ["expectedBool next token to be IDENT, got = instead",
       "no prefix parse function for = found"] ∧
    peekErrorMsg tokIDENT tokASSIGN ≠
      "expected next token to be IDENT, got = instead" := by
  exact ⟨rfl, by decide⟩

/-- C4 counterexample: the INT token "010" is parsed by parseIntegerLiteral
into an IntegerLiteral of value 8 (octal, because strconv.ParseInt is called
with base 0), not the decimal value 10 the claim states, and no error is
recorded. -/
theorem c4_octal_counterexample :
    (parseWith 50 "010").1 = [Stmt.exprS (Expr.intLit "010" 8)] ∧
    (parseWith 50 "010").2.errors = [] ∧
    (8 : Int) ≠ 10 := by
  exact ⟨rfl, rfl, by decide⟩

/-- C4 amended: parseIntegerLiteral interprets an INT token with radix
inference (strconv.ParseInt base 0): a digit run that does not start with
'0' is read in base 10 (its value is the decimal value of the digit string,
when it fits int64), "0" is 0, but a leading zero with more digits selects
octal — "010" yields 8 — and an invalid octal digit fails the parse, which
records "could not parse %q as integer" and returns absent. -/
theorem c4_radix_inference :
    (∀ (c : Char) (rest : List Char),
      (∀ x ∈ c :: rest, isDigitCh x = true) →
      ¬c = '0' →
      specDecimalVal (c :: rest) ≤ maxInt64Nat →
      goParseInt0Core (c :: rest) = some (Int.ofNat (specDecimalVal (c :: rest)))) ∧
    goParseInt0 "0" = some 0 ∧
    goParseInt0 "010" = some 8 ∧
    goParseInt0 "08" = none ∧
    (parseWith 50 "08").2.errors = ["could not parse \"08\" as integer"] := by
  refine ⟨?_, rfl, rfl, rfl, rfl⟩
  intro c rest hd hc hle
  have hbeq : (c == '0') = false := by
    simp [hc]
  simp only [goParseInt0Core, hbeq, Bool.false_and, Bool.false_eq_true, if_false]
  rw [digitsToNat?_base10 (c :: rest) hd 0]
  simp only [specDecimalVal] at hle ⊢
  rw [if_pos hle]

/-- C4 witness: the amended base-10 branch at the concrete digit run "42". -/
theorem c4_radix_inference_w :
    goParseInt0Core ['4', '2'] = some (Int.ofNat (specDecimalVal ['4', '2'])) :=
  c4_radix_inference.1 '4' ['2'] (by decide) (by decide) (by decide)

/-- C5 counterexample: `a[1]` does not parse into a single expression
statement holding an IndexExpression; ParseProgram yields two statements
and the program's String serialization is not "(a[1])". -/
theorem c5_no_index_expression :
    (parseWith 50 "a[1]").1.length = 2 ∧
    blockString (parseWith 50 "a[1]").1 ≠ "(a[1])" := by
  exact ⟨rfl, by decide⟩

/-- C5 amended: the parser registers no infix function for LBRACKET (and the
precedences table gives it LOWEST), so no IndexExpression is ever produced:
`a[1]` parses with an empty error list into two expression statements — the
identifier `a` and the array literal `[1]` — whose Program String
serialization is "a[1]". -/
theorem c5_lbracket_not_registered :
    hasInfixFn tokLBRACKET = false ∧
    precedenceOf tokLBRACKET = precLOWEST ∧
    (parseWith 50 "a[1]").1 =
      [Stmt.exprS (Expr.ident "a"), Stmt.exprS (Expr.arrayLit [Expr.intLit "1" 1])] ∧
    (parseWith 50 "a[1]").2.errors = [] ∧
    blockString (parseWith 50 "a[1]").1 = "a[1]" := by
  exact ⟨rfl, rfl, rfl, rfl, rfl⟩


/-- C1: evalIfExpression does not propagate an Error condition.  Unlike
every other compound form, it runs the condition value straight through
isTruthy, which treats any non-singleton object — an Error included — as
true, so the consequence is evaluated and its value returned.  With x
unbound, the condition alone evaluates to the identifier-not-found Error,
yet the whole if-expression evaluates to Integer 1 (the consequence), not to
that Error as the claim states. -/
theorem c1_if_error_condition_is_truthy :
    evalExpr 5 initState 0 (Expr.ident "x") =
      Res.ok (some (Obj.error "identifier not found: x")) initState ∧
    runProgram 99 "if (x) \x7b 1 \x7d else \x7b 2 \x7d" =
      Res.ok (some (Obj.integer 1)) initState ∧
    isTruthy (some (Obj.error "identifier not found: x")) = true := by
  exact ⟨rfl, rfl, rfl⟩

/-- C2 counterexample: evaluating the program
`return if (true) \x7b return 5; \x7d;` at the Program node yields a value
whose tag is RETURN_VALUE — the inner return's wrapper survives the single
unwrap at the program boundary because the outer return wrapped it a second
time. -/
theorem c2_return_value_at_top_level :
    resTag (runProgram 99 "return if (true) \x7b return 5; \x7d;") =
      some "RETURN_VALUE" := by
  exact rfl

/-- C2 amended: the Program boundary unwraps exactly one ReturnValue layer:
a program whose first statement is `return e` evaluates to exactly the value
of e whenever e's evaluation produces a non-error value, so when that value
is itself a ReturnValue (as for `return if (true) \x7b return 5; \x7d;`,
whose value is the still-wrapped ReturnValue around Integer 5) the program
result has tag RETURN_VALUE. -/
theorem c2_program_unwraps_once :
    (∀ (fuel : Nat) (st st1 : EState) (env : Nat) (e : Expr) (rest : List Stmt)
        (v : Option Obj),
      evalExpr fuel st env e = Res.ok v st1 →
      isErrorV v = false →
      evalProgStmts (fuel + 2) st env (Stmt.returnS e :: rest) =
        Res.ok v { st1 with nextId := st1.nextId + 1 }) ∧
    resVal (runProgram 99 "return if (true) \x7b return 5; \x7d;") =
      some (some (Obj.returnValue 0 (some (Obj.integer 5)))) := by
  constructor
  · intro fuel st st1 env e rest v hev herr
    simp only [evalProgStmts, evalStmt, hev, herr, Bool.false_eq_true, if_false]
  · rfl

/-- C2 witness: the single-unwrap lemma at `return 7;` — the wrapper added
by the return statement is removed at the program boundary, leaving the
plain Integer. -/
theorem c2_program_unwraps_once_w :
    evalProgStmts 3 initState 0 [Stmt.returnS (Expr.intLit "7" 7)] =
      Res.ok (some (Obj.integer 7)) ⟨[⟨[], none⟩], 1⟩ :=
  c2_program_unwraps_once.1 1 initState initState 0 (Expr.intLit "7" 7) []
    (some (Obj.integer 7)) rfl rfl

/-- C6: the doubly-nested return program from the spec evaluates to Integer
10 through the full pipeline (empty parser error list): the inner return's
ReturnValue passes through both blocks unchanged and is unwrapped once at
the Program node.  The final allocation counter 1 records that exactly one
ReturnValue was ever created — the outer `return 1;` was never evaluated. -/
theorem c6_nested_return_is_ten :
    (parseWith 99 "if (10 > 1) \x7b if (10 > 1) \x7b return 10; \x7d return 1; \x7d").2.errors
      = [] ∧
    runProgram 99 "if (10 > 1) \x7b if (10 > 1) \x7b return 10; \x7d return 1; \x7d" =
      Res.ok (some (Obj.integer 10)) ⟨[⟨[], none⟩], 1⟩ := by
  exact ⟨rfl, rfl⟩

/-- C7: a condition value is truthy exactly when it is neither the NULL
singleton nor the FALSE singleton; Integer 0 is truthy, so `if (0)` takes
the consequence, and the NULL produced by an alternative-less false if
selects the alternative of an enclosing if. -/
theorem c7_truthiness :
    (∀ v : Obj, isTruthy (some v) = true ↔ (v ≠ Obj.null ∧ v ≠ Obj.boolean false)) ∧
    isTruthy (some (Obj.integer 0)) = true ∧
    runProgram 99 "if (0) \x7b 1 \x7d else \x7b 2 \x7d" =
      Res.ok (some (Obj.integer 1)) initState ∧
    runProgram 99 "if (if (false) \x7b 1 \x7d) \x7b 3 \x7d else \x7b 4 \x7d" =
      Res.ok (some (Obj.integer 4)) initState := by
  refine ⟨?_, rfl, rfl, rfl⟩
  intro v
  cases v with
  | boolean b => cases b <;> simp [isTruthy]
  | null => simp [isTruthy]
  | integer n => simp [isTruthy]
  | returnValue i w => simp [isTruthy]
  | error m => simp [isTruthy]
  | function i ps b env => simp [isTruthy]

/-- C8: closures capture their defining environment and Get walks the scope
chain innermost-first: the curried adder program parses cleanly and
evaluates to Integer 5 (y = 3 from the call scope, x = 2 from the captured
scope of the newAdder(2) application). -/
theorem c8_closure_adder :
    (parseWith 200 "let newAdder = fn(x) \x7b fn(y) \x7b x + y \x7d \x7d; let addTwo = newAdder(2); addTwo(3)").2.errors = [] ∧
    resVal (runProgram 200 "let newAdder = fn(x) \x7b fn(y) \x7b x + y \x7d \x7d; let addTwo = newAdder(2); addTwo(3)") =
      some (some (Obj.integer 5)) := by
  exact ⟨rfl, rfl⟩


/-- C9: for every lexer state, repeated NextToken calls reach the EOF token
(empty literal) after finitely many calls; once the cursor is at or past the
end of input every call returns EOF again (so EOF is the last emission); and
every NextToken call strictly advances the read position. -/
theorem c9_lexer_terminates_with_eof :
    ∀ l : Lexer,
      (∃ n, (lexNth l n).1 = ⟨tokEOF, ""⟩) ∧
      (l.input.length ≤ l.position →
        nextToken l = (⟨tokEOF, ""⟩, readChar l) ∧
          (readChar l).input.length ≤ (readChar l).position) ∧
      l.position < (nextToken l).2.position :=
  fun l => ⟨lexNth_reaches_eof l, nextToken_at_end l, (nextToken_advances l).2⟩

/-- C9 witness: at the end of the two-rune input "ab" the lexer emits EOF
and stays at the end. -/
theorem c9_lexer_terminates_with_eof_w :
    nextToken ⟨"ab".toList, 2⟩ = (⟨tokEOF, ""⟩, readChar ⟨"ab".toList, 2⟩) ∧
      (readChar ⟨"ab".toList, 2⟩).input.length ≤ (readChar ⟨"ab".toList, 2⟩).position :=
  (c9_lexer_terminates_with_eof ⟨"ab".toList, 2⟩).2.1 (by decide)

/-- C10: the `/` branch of evalIntegerInfixExpression is unguarded — when
both operands of an infix `/` evaluate to Integers, the evaluator produces a
Value only under the precondition that the divisor is nonzero (the truncated
quotient); with divisor Integer 0 the host division panics and no Value (not
even an Error) is returned. -/
theorem c10_integer_division_unguarded :
    ∀ (fuel : Nat) (st st1 st2 : EState) (env : Nat) (l r : Expr) (a b : Int),
      evalExpr fuel st env l = Res.ok (some (Obj.integer a)) st1 →
      evalExpr fuel st1 env r = Res.ok (some (Obj.integer b)) st2 →
      (b = 0 → evalExpr (fuel + 1) st env (Expr.infixE l "/" r) = Res.panicked) ∧
      (b ≠ 0 → evalExpr (fuel + 1) st env (Expr.infixE l "/" r) =
        Res.ok (some (Obj.integer (wrap64 (goQuot a b)))) st2) := by
  intro fuel st st1 st2 env l r a b hl hr
  constructor
  · intro hb
    subst hb
    simp [evalExpr, hl, hr, isErrorV, evalInfixExpression, evalIntegerInfixExpression]
  · intro hb
    have hbeq : (b == (0 : Int)) = false := by
      simp [hb]
    simp [evalExpr, hl, hr, isErrorV, evalInfixExpression, evalIntegerInfixExpression,
      hbeq]

/-- C10 witness: `1 / 0` (as the direct infix AST and through the whole
pipeline) produces a panic, not a Value. -/
theorem c10_integer_division_unguarded_w :
    evalExpr 2 initState 0
        (Expr.infixE (Expr.intLit "1" 1) "/" (Expr.intLit "0" 0)) = Res.panicked ∧
    runProgram 99 "1 / 0" = Res.panicked :=
  ⟨(c10_integer_division_unguarded 1 initState initState initState 0
      (Expr.intLit "1" 1) (Expr.intLit "0" 0) 1 0 rfl rfl).1 rfl, rfl⟩

end Muskmelon
